import Mathlib

/-!
Verification of the Mandelbrot explorer's Viewport & Render-Scheduling core.

This file gives a shallow embedding of the repository's core modules and
proves (or refutes) the specification's claims about them:

* `src/core/viewport.ts` — viewport geometry (`createViewport`,
  `resetViewport`, `zoomToRect`, `pixelToComplex`, `complexToPixel`,
  `getViewportBounds`, `getZoomFactor`).
* `src/core/mandelbrot.ts` — the CPU reference escape-time kernel
  (`escapeIterations`, `smoothEscape`).
* `src/renderer/renderController.ts` — the `RenderController` scheduler,
  modelled as a pure state machine driven by explicit actions (public
  method calls plus firings of the armed timer/animation-frame callbacks).

Modelling conventions: JavaScript `number` arithmetic is idealised as exact
rational arithmetic (`ℚ`); the transcendental tail of `smoothEscape`
(`Math.log`, `Math.sqrt`) is idealised over `ℝ`; `Math.exp` inside the
hold-zoom frame callback is an uninterpreted parameter `expF : ℚ → ℚ`
(no claim depends on its values).  Rational division is total (`x / 0 = 0`);
every theorem below that relies on a division keeps the divisor nonzero
through its hypotheses, except where a counterexample explicitly exercises a
degenerate input, in which case the branch taken and the produced value
coincide with the JavaScript evaluation of the same input.
-/

/-- `Viewport` from `src/core/types.ts`: axis-aligned window on the complex
plane, centered at `(centerRe, centerIm)`, spanning `width × height`. -/
structure Viewport where
  centerRe : ℚ
  centerIm : ℚ
  width : ℚ
  height : ℚ
deriving DecidableEq, Repr

/-- `Rect` from `src/core/types.ts`: screen-pixel rectangle, origin top-left. -/
structure Rect where
  x : ℚ
  y : ℚ
  width : ℚ
  height : ℚ
deriving DecidableEq, Repr

/-- `CanvasSize` from `src/core/types.ts`. -/
structure CanvasSize where
  width : ℚ
  height : ℚ
deriving DecidableEq, Repr

/-- `ComplexPoint` from `src/core/types.ts`. -/
structure ComplexPoint where
  re : ℚ
  im : ℚ
deriving DecidableEq, Repr

/-- The `{x, y}` pixel pair returned by `complexToPixel`. -/
structure PixelPoint where
  x : ℚ
  y : ℚ
deriving DecidableEq, Repr

/-- The `{left, right, top, bottom}` record returned by `getViewportBounds`. -/
structure Bounds where
  left : ℚ
  right : ℚ
  top : ℚ
  bottom : ℚ
deriving DecidableEq, Repr

/-- `createViewport` from `src/core/viewport.ts`. -/
def createViewport (centerRe centerIm width height : ℚ) : Viewport :=
  { centerRe := centerRe, centerIm := centerIm, width := width, height := height }

/-- `resetViewport` from `src/core/viewport.ts`: default Mandelbrot view for
a given aspect ratio.  `targetSpan = 3.0`, `padding = 1.05`,
`width = max(targetSpan, targetSpan * aspectRatio) * padding`,
`height = width / aspectRatio`, centered at `(-0.5, 0)`. -/
def resetViewport (aspectRatio : ℚ) : Viewport :=
  let targetSpan : ℚ := 3
  let padding : ℚ := 21/20
  let width := max targetSpan (targetSpan * aspectRatio) * padding
  let height := width / aspectRatio
  createViewport (-1/2) 0 width height

/-- `pixelToComplex` from `src/core/viewport.ts`. -/
def pixelToComplex (viewport : Viewport) (pixelX pixelY canvasWidth canvasHeight : ℚ) :
    ComplexPoint :=
  let normalizedX := pixelX / canvasWidth
  let normalizedY := pixelY / canvasHeight
  { re := viewport.centerRe - viewport.width / 2 + normalizedX * viewport.width
    im := viewport.centerIm + viewport.height / 2 - normalizedY * viewport.height }

/-- `complexToPixel` from `src/core/viewport.ts`. -/
def complexToPixel (viewport : Viewport) (re im canvasWidth canvasHeight : ℚ) :
    PixelPoint :=
  let normalizedX := (re - (viewport.centerRe - viewport.width / 2)) / viewport.width
  let normalizedY := (viewport.centerIm + viewport.height / 2 - im) / viewport.height
  { x := normalizedX * canvasWidth, y := normalizedY * canvasHeight }

/-- `zoomToRect` from `src/core/viewport.ts`: zoom to a rectangular
selection, preserving the canvas aspect ratio. -/
def zoomToRect (viewport : Viewport) (rect : Rect) (canvasSize : CanvasSize) : Viewport :=
  let aspectRatio := canvasSize.width / canvasSize.height
  let centerPixelX := rect.x + rect.width / 2
  let centerPixelY := rect.y + rect.height / 2
  let centerComplex :=
    pixelToComplex viewport centerPixelX centerPixelY canvasSize.width canvasSize.height
  let pixelAspect := rect.width / rect.height
  if pixelAspect > aspectRatio then
    let newWidth := (rect.width / canvasSize.width) * viewport.width
    let newHeight := newWidth / aspectRatio
    createViewport centerComplex.re centerComplex.im newWidth newHeight
  else
    let newHeight := (rect.height / canvasSize.height) * viewport.height
    let newWidth := newHeight * aspectRatio
    createViewport centerComplex.re centerComplex.im newWidth newHeight

/-- `getViewportBounds` from `src/core/viewport.ts`. -/
def getViewportBounds (viewport : Viewport) : Bounds :=
  { left := viewport.centerRe - viewport.width / 2
    right := viewport.centerRe + viewport.width / 2
    top := viewport.centerIm + viewport.height / 2
    bottom := viewport.centerIm - viewport.height / 2 }

/-- `getZoomFactor` from `src/core/viewport.ts`. -/
def getZoomFactor (viewport : Viewport) : ℚ :=
  let baseSpan : ℚ := 3 * (21/20)
  let visibleSpan := min viewport.width viewport.height
  baseSpan / visibleSpan

/-! ## Escape-time kernel (`src/core/mandelbrot.ts`) -/

/-- Squared magnitude of a point of the orbit, `zRe² + zIm²`. -/
def magSq (z : ℚ × ℚ) : ℚ := z.1 * z.1 + z.2 * z.2

/-- The orbit `z₀ = 0`, `z_{n+1} = z_n² + c` iterated by both kernel loops:
each loop body maps `(zRe, zIm)` to `(zRe² − zIm² + cRe, 2·zRe·zIm + cIm)`. -/
def mandelOrbit (cRe cIm : ℚ) : ℕ → ℚ × ℚ
  | 0 => (0, 0)
  | n + 1 =>
    let z := mandelOrbit cRe cIm n
    (z.1 * z.1 - z.2 * z.2 + cRe, 2 * z.1 * z.2 + cIm)

/-- The `while` loop of `escapeIterations`, with `fuel = maxIterations − i`
remaining iterations; when fuel runs out `i` has reached `maxIterations`,
which is what the source returns. The bailout test is `zRe² + zIm² > 4`. -/
def escapeIterationsGo (cRe cIm : ℚ) (zRe zIm : ℚ) (i : ℕ) : ℕ → ℕ
  | 0 => i
  | fuel + 1 =>
    if zRe * zRe + zIm * zIm > 4 then i
    else
      escapeIterationsGo cRe cIm (zRe * zRe - zIm * zIm + cRe) (2 * zRe * zIm + cIm)
        (i + 1) fuel

/-- `escapeIterations` from `src/core/mandelbrot.ts`: first iteration index
at which `|z|² > 4`, or `maxIterations` if the point never escapes. -/
def escapeIterations (cRe cIm : ℚ) (maxIterations : ℕ) : ℕ :=
  escapeIterationsGo cRe cIm 0 0 0 maxIterations

/-- The `while` loop of `smoothEscape`.  On escape at index `i` with squared
magnitude `m` it returns `min (i + 1 − log 4 / log (√m)) maxIterations`
(in the source: `logBailout = Math.log(4)`, `logMag = Math.log(Math.sqrt(m))`,
`smooth = i + 1 - logBailout / logMag`, clamped by `Math.min`); when the
budget is exhausted it returns `maxIterations`. -/
noncomputable def smoothEscapeGo (cRe cIm : ℚ) (zRe zIm : ℚ) (i maxIterations : ℕ) :
    ℕ → ℝ
  | 0 => maxIterations
  | fuel + 1 =>
    if zRe * zRe + zIm * zIm > 4 then
      min ((i : ℝ) + 1 -
        Real.log 4 / Real.log (Real.sqrt ((zRe * zRe + zIm * zIm : ℚ) : ℝ)))
        (maxIterations : ℝ)
    else
      smoothEscapeGo cRe cIm (zRe * zRe - zIm * zIm + cRe) (2 * zRe * zIm + cIm)
        (i + 1) maxIterations fuel

/-- `smoothEscape` from `src/core/mandelbrot.ts`. -/
noncomputable def smoothEscape (cRe cIm : ℚ) (maxIterations : ℕ) : ℝ :=
  smoothEscapeGo cRe cIm 0 0 0 maxIterations maxIterations

/-! ## RenderController (`src/renderer/renderController.ts`)

The controller is a class whose methods arm/cancel a debounce timer
(`setTimeout`) and animation-frame callbacks (`requestAnimationFrame`), and
issue calls on the injected renderer.  We model it as a pure state machine:

* the four handle fields become slots — a `Bool` (armed or not) for the two
  callbacks that capture no data (`debounceTimeoutId`, `renderRequestId`),
  and an `Option` of the captured closure data for the per-frame loops
  (`animationFrameId`, `holdZoomFrameId`).  The DOM guarantees handles are
  nonzero, so JavaScript's truthiness tests on them mean "armed".
* renderer calls and completion callbacks become an emitted `Event` list;
* `performance.now()` values arrive as explicit `now` arguments;
* the environment's firing of an armed callback is an explicit action
  (`fireDebounce`, `fireRenderFrame`, `fireAnim`, `fireHold`); firing an
  unarmed slot is a no-op, matching the DOM guarantee that a cancelled
  timer/frame never fires.
-/

/-- The `quality` preset of `RenderSettings` (`src/core/types.ts`). -/
inductive Quality where
  | low
  | medium
  | high
  | ultra
deriving DecidableEq, Repr

/-- The optional `debugMode` field of `RenderSettings`. -/
inductive DebugMode where
  | none
  | gradient
  | grayscale
deriving DecidableEq, Repr

/-- `RenderSettings` from `src/core/types.ts`. -/
structure RenderSettings where
  maxIterations : ℕ
  smoothColoring : Bool
  gamma : ℚ
  insideColor : ℚ × ℚ × ℚ
  palette : String
  quality : Quality
  progressiveRefinement : Bool
  reduceQualityWhileDragging : Bool
  debugMode : Option DebugMode
  zoomFactor : Option ℚ
deriving DecidableEq, Repr

namespace RenderController

/-- `RenderController.getQualityIterations`: preset → base iteration count. -/
def getQualityIterations : Quality → ℕ
  | .low => 64
  | .medium => 128
  | .high => 256
  | .ultra => 512

/-- `RenderController.getProgressiveIterations`: reduced iteration count
while dragging/animating, `max(32, ⌊base / 4⌋)`. -/
def getProgressiveIterations (quality : Quality) (isDragging : Bool) : ℕ :=
  let base := getQualityIterations quality
  if isDragging then max 32 (base / 4) else base

/-- The `easeInOutQuad` curve used by `animateZoom`. -/
def easeInOutQuad (t : ℚ) : ℚ :=
  if t < 1/2 then 2 * t * t else -1 + (4 - 2 * t) * t

/-- Data captured by the `step` closure of `animateZoom`. -/
structure AnimData where
  start : Viewport
  targetRe : ℚ
  targetIm : ℚ
  aspectRatio : ℚ
  targetWidth : ℚ
  startTime : ℚ
  settings : RenderSettings
  animSettings : RenderSettings
  hasOnComplete : Bool
deriving DecidableEq, Repr

/-- Data captured by the `step` closure of `startHoldZoom`. -/
structure HoldData where
  start : Viewport
  targetRe : ℚ
  targetIm : ℚ
  aspectRatio : ℚ
  startTime : ℚ
  animSettings : RenderSettings
deriving DecidableEq, Repr

/-- The mutable fields of the `RenderController` instance. -/
structure State where
  renderRequestId : Bool
  debounceTimeoutId : Bool
  animationFrameId : Option AnimData
  holdZoomFrameId : Option HoldData
  holdLastViewport : Option Viewport
  lastViewport : Option Viewport
  lastSettings : Option RenderSettings
deriving DecidableEq, Repr

/-- The freshly constructed controller: every field `null`. -/
def State.initial : State :=
  { renderRequestId := false
    debounceTimeoutId := false
    animationFrameId := none
    holdZoomFrameId := none
    holdLastViewport := none
    lastViewport := none
    lastSettings := none }

/-- Observable calls the controller makes on its collaborators. -/
inductive Event where
  | updatePalette (palette : String)
  | render (viewport : Viewport) (settings : RenderSettings)
  | complete (viewport : Viewport)
deriving DecidableEq, Repr

/-- `RenderController.cancel`: clear every pending timer and frame handle
and drop the stored hold-zoom viewport.  Emits nothing. -/
def cancel (s : State) : State :=
  { s with
    holdZoomFrameId := none
    holdLastViewport := none
    animationFrameId := none
    renderRequestId := false
    debounceTimeoutId := false }

/-- `RenderController.animateZoom`: cancel all pending work, snapshot the
animation parameters (the closure captures `start`, `target`, `targetWidth`,
the settings pair and `startTime`), push the palette, and arm the
animation-frame loop. -/
def animateZoom (viewport : Viewport) (settings : RenderSettings)
    (targetRe targetIm aspectRatio : ℚ) (hasOnComplete : Bool) (now : ℚ)
    (s : State) : State × List Event :=
  let s := cancel s
  let zoomFactor := settings.zoomFactor.getD 2
  let targetWidth := viewport.width / zoomFactor
  let progressiveIterations := getProgressiveIterations settings.quality true
  let animSettings := { settings with maxIterations := progressiveIterations }
  ( { s with animationFrameId := some (
        { start := viewport, targetRe := targetRe, targetIm := targetIm
          aspectRatio := aspectRatio, targetWidth := targetWidth, startTime := now
          settings := settings, animSettings := animSettings
          hasOnComplete := hasOnComplete : AnimData }) },
    [Event.updatePalette settings.palette] )

/-- One firing of the `animateZoom` frame callback at clock value `now`
(`durationMs = 450`): render the eased intermediate viewport at reduced
iterations; while `t < 1` re-arm, otherwise issue the final full-quality
render, store it, clear the handle and invoke the completion callback. -/
def fireAnim (now : ℚ) (s : State) : State × List Event :=
  match s.animationFrameId with
  | Option.none => (s, [])
  | Option.some d =>
    let t := min 1 ((now - d.startTime) / 450)
    let e := easeInOutQuad t
    let centerRe := d.start.centerRe + (d.targetRe - d.start.centerRe) * e
    let centerIm := d.start.centerIm + (d.targetIm - d.start.centerIm) * e
    let width := d.start.width + (d.targetWidth - d.start.width) * e
    let height := width / d.aspectRatio
    let currentViewport : Viewport :=
      { centerRe := centerRe, centerIm := centerIm, width := width, height := height }
    if t < 1 then
      (s, [Event.render currentViewport d.animSettings])
    else
      ( { s with
          animationFrameId := none
          lastViewport := some currentViewport
          lastSettings := some d.settings },
        [Event.render currentViewport d.animSettings,
         Event.render currentViewport d.settings] ++
          (if d.hasOnComplete then [Event.complete currentViewport] else []) )

/-- `RenderController.startHoldZoom`: cancel all pending work, snapshot the
hold parameters, push the palette, and arm the hold-zoom frame loop. -/
def startHoldZoom (viewport : Viewport) (settings : RenderSettings)
    (targetRe targetIm aspectRatio : ℚ) (now : ℚ) (s : State) : State × List Event :=
  let s := cancel s
  let progressiveIterations := getProgressiveIterations settings.quality true
  let animSettings := { settings with maxIterations := progressiveIterations }
  ( { s with holdZoomFrameId := some (
        { start := viewport, targetRe := targetRe, targetIm := targetIm
          aspectRatio := aspectRatio, startTime := now,
          animSettings := animSettings : HoldData }) },
    [Event.updatePalette settings.palette] )

/-- One firing of the `startHoldZoom` frame callback at clock value `now`
(`zoomRatePerSec = 1.6`): shrink the span by `exp (−1.6 · elapsed)` — the
`Math.exp` call is the uninterpreted parameter `expF` — recenter on the
target, remember the viewport in `holdLastViewport`, render at reduced
iterations and re-arm. -/
def fireHold (expF : ℚ → ℚ) (now : ℚ) (s : State) : State × List Event :=
  match s.holdZoomFrameId with
  | Option.none => (s, [])
  | Option.some d =>
    let elapsedSec := max 0 ((now - d.startTime) / 1000)
    let factor := expF (-(8/5) * elapsedSec)
    let width := d.start.width * factor
    let height := width / d.aspectRatio
    let currentViewport : Viewport :=
      { centerRe := d.targetRe, centerIm := d.targetIm, width := width, height := height }
    ( { s with holdLastViewport := some currentViewport },
      [Event.render currentViewport d.animSettings] )

/-- `RenderController.stopHoldZoom`: cancel the hold-zoom frame if armed;
if a hold frame has stored a viewport, render it at full quality, record it
as the last render and invoke the completion callback; finally clear the
stored hold viewport. -/
def stopHoldZoom (settings : RenderSettings) (hasOnComplete : Bool) (s : State) :
    State × List Event :=
  let s := { s with holdZoomFrameId := none }
  match s.holdLastViewport with
  | Option.none => ({ s with holdLastViewport := none }, [])
  | Option.some hv =>
    ( { s with
        lastViewport := some hv
        lastSettings := some settings
        holdLastViewport := none },
      [Event.render hv settings] ++
        (if hasOnComplete then [Event.complete hv] else []) )

/-- `RenderController.startInteraction`: clear a pending debounce timer. -/
def startInteraction (s : State) : State × List Event :=
  ({ s with debounceTimeoutId := false }, [])

/-- The events of `RenderController.performRender`: re-push the palette and
re-render the last requested viewport/settings, if both are present. -/
def performRenderEvents (s : State) : List Event :=
  match s.lastViewport, s.lastSettings with
  | some vp, some st => [Event.updatePalette st.palette, Event.render vp st]
  | _, _ => []

/-- `RenderController.endInteraction` (via the private `scheduleRender`):
cancel a previously scheduled render frame and arm a new one. -/
def endInteraction (s : State) : State × List Event :=
  ({ s with renderRequestId := true }, [])

/-- `RenderController.render`: record the requested viewport/settings; with
`debounce` cancel the previous debounce timer and arm a new one, otherwise
cancel the previously scheduled render frame and arm a new one. -/
def render (viewport : Viewport) (settings : RenderSettings) (debounce : Bool)
    (s : State) : State × List Event :=
  let s := { s with lastViewport := some viewport, lastSettings := some settings }
  if debounce then
    ({ s with debounceTimeoutId := true }, [])
  else
    ({ s with renderRequestId := true }, [])

/-- Firing of the debounce timer (`DEBOUNCE_DELAY = 200` ms elapsed):
perform the render and clear the handle. -/
def fireDebounce (s : State) : State × List Event :=
  if s.debounceTimeoutId then
    ({ s with debounceTimeoutId := false }, performRenderEvents s)
  else (s, [])

/-- Firing of the frame scheduled by `render`/`scheduleRender`: perform the
render and clear the handle. -/
def fireRenderFrame (s : State) : State × List Event :=
  if s.renderRequestId then
    ({ s with renderRequestId := false }, performRenderEvents s)
  else (s, [])

/-- An external stimulus: a public method call on the controller or the
firing of one of its armed callbacks. -/
inductive Act where
  | animateZoom (viewport : Viewport) (settings : RenderSettings)
      (targetRe targetIm aspectRatio : ℚ) (hasOnComplete : Bool) (now : ℚ)
  | startHoldZoom (viewport : Viewport) (settings : RenderSettings)
      (targetRe targetIm aspectRatio : ℚ) (now : ℚ)
  | stopHoldZoom (settings : RenderSettings) (hasOnComplete : Bool)
  | startInteraction
  | endInteraction
  | render (viewport : Viewport) (settings : RenderSettings) (debounce : Bool)
  | cancel
  | fireDebounce
  | fireRenderFrame
  | fireAnim (now : ℚ)
  | fireHold (now : ℚ)
deriving DecidableEq, Repr

/-- Whether an action is a `startHoldZoom` call. -/
def Act.isStartHold : Act → Bool
  | .startHoldZoom _ _ _ _ _ _ => true
  | _ => false

/-- Apply one action to a controller state. -/
def applyAct (expF : ℚ → ℚ) : Act → State → State × List Event
  | .animateZoom vp st tRe tIm asp cb now, s => animateZoom vp st tRe tIm asp cb now s
  | .startHoldZoom vp st tRe tIm asp now, s => startHoldZoom vp st tRe tIm asp now s
  | .stopHoldZoom st cb, s => stopHoldZoom st cb s
  | .startInteraction, s => startInteraction s
  | .endInteraction, s => endInteraction s
  | .render vp st debounce, s => render vp st debounce s
  | .cancel, s => (cancel s, [])
  | .fireDebounce, s => fireDebounce s
  | .fireRenderFrame, s => fireRenderFrame s
  | .fireAnim now, s => fireAnim now s
  | .fireHold now, s => fireHold expF now s

/-- Run a sequence of actions, accumulating emitted events. -/
def runActs (expF : ℚ → ℚ) : List Act → State × List Event → State × List Event
  | [], p => p
  | a :: rest, p =>
    let q := applyAct expF a p.1
    runActs expF rest (q.1, p.2 ++ q.2)

/-- Number of armed timing sources: the debounce timer, the scheduled
render frame, the zoom-animation loop and the hold-zoom loop. -/
def activeSources (s : State) : ℕ :=
  (if s.debounceTimeoutId then 1 else 0) +
    (if s.renderRequestId then 1 else 0) +
    (if s.animationFrameId.isSome then 1 else 0) +
    (if s.holdZoomFrameId.isSome then 1 else 0)

/-- Both hold-zoom artifacts are absent: no hold-zoom frame is armed and no
hold frame has stored a viewport.  Established by `cancel` (hence by
`animateZoom` and `startHoldZoom` before they arm their own loop) and
preserved by every action except a new `startHoldZoom`. -/
def holdInactive (s : State) : Prop :=
  s.holdZoomFrameId = none ∧ s.holdLastViewport = none

end RenderController

/-- Fixture: the home viewport for a 16:9 canvas, used for concrete runs. -/
def sampleViewport : Viewport := ⟨-1/2, 0, 28/5, 63/20⟩

/-- Fixture: a concrete `RenderSettings` value, used for concrete runs. -/
def sampleSettings : RenderSettings :=
  { maxIterations := 128
    smoothColoring := true
    gamma := 1
    insideColor := (0, 0, 0)
    palette := "classic"
    quality := Quality.medium
    progressiveRefinement := true
    reduceQualityWhileDragging := true
    debugMode := none
    zoomFactor := none }

/-! ## Kernel lemmas: the loops viewed through `mandelOrbit` -/

/-- One unfolding of the orbit. -/
theorem mandelOrbit_succ (cRe cIm : ℚ) (n : ℕ) :
    mandelOrbit cRe cIm (n + 1) =
      ((mandelOrbit cRe cIm n).1 * (mandelOrbit cRe cIm n).1 -
          (mandelOrbit cRe cIm n).2 * (mandelOrbit cRe cIm n).2 + cRe,
        2 * (mandelOrbit cRe cIm n).1 * (mandelOrbit cRe cIm n).2 + cIm) := by
  simp [mandelOrbit]

/-- If no orbit point tested inside the remaining fuel escapes, the integer
loop runs the budget out and returns `i + fuel`. -/
theorem escapeIterationsGo_interior (cRe cIm : ℚ) :
    ∀ fuel i : ℕ, (∀ j < fuel, magSq (mandelOrbit cRe cIm (i + j)) ≤ 4) →
      escapeIterationsGo cRe cIm (mandelOrbit cRe cIm i).1 (mandelOrbit cRe cIm i).2
        i fuel = i + fuel := by
  intro fuel
  induction fuel with
  | zero => intro i _; simp [escapeIterationsGo]
  | succ f ih =>
    intro i h
    have h0 : magSq (mandelOrbit cRe cIm i) ≤ 4 := by
      simpa using h 0 (Nat.succ_pos f)
    have hng : ¬(4 < (mandelOrbit cRe cIm i).1 * (mandelOrbit cRe cIm i).1 +
        (mandelOrbit cRe cIm i).2 * (mandelOrbit cRe cIm i).2) := by
      simpa [magSq] using not_lt.mpr h0
    have hstep := ih (i + 1) (fun j hj => by
      have := h (j + 1) (Nat.succ_lt_succ hj)
      rwa [show i + (j + 1) = i + 1 + j by omega] at this)
    rw [mandelOrbit_succ] at hstep
    simp only [escapeIterationsGo, gt_iff_lt, if_neg hng]
    rw [hstep]
    omega

/-- If the orbit first escapes at index `i + k` with `k` inside the fuel,
the integer loop returns `i + k`. -/
theorem escapeIterationsGo_escape (cRe cIm : ℚ) :
    ∀ fuel i k : ℕ, k < fuel → 4 < magSq (mandelOrbit cRe cIm (i + k)) →
      (∀ j < k, magSq (mandelOrbit cRe cIm (i + j)) ≤ 4) →
      escapeIterationsGo cRe cIm (mandelOrbit cRe cIm i).1 (mandelOrbit cRe cIm i).2
        i fuel = i + k := by
  intro fuel
  induction fuel with
  | zero => omega
  | succ f ih =>
    intro i k hk hesc hmin
    cases k with
    | zero =>
      have hesc' : 4 < (mandelOrbit cRe cIm i).1 * (mandelOrbit cRe cIm i).1 +
          (mandelOrbit cRe cIm i).2 * (mandelOrbit cRe cIm i).2 := by
        simpa [magSq] using hesc
      simp [escapeIterationsGo, hesc']
    | succ k' =>
      have h0 : magSq (mandelOrbit cRe cIm i) ≤ 4 := by
        simpa using hmin 0 (Nat.succ_pos k')
      have hng : ¬(4 < (mandelOrbit cRe cIm i).1 * (mandelOrbit cRe cIm i).1 +
          (mandelOrbit cRe cIm i).2 * (mandelOrbit cRe cIm i).2) := by
        simpa [magSq] using not_lt.mpr h0
      have hstep := ih (i + 1) k' (by omega)
        (by rwa [show i + 1 + k' = i + (k' + 1) by omega])
        (fun j hj => by
          have := hmin (j + 1) (Nat.succ_lt_succ hj)
          rwa [show i + (j + 1) = i + 1 + j by omega] at this)
      rw [mandelOrbit_succ] at hstep
      simp only [escapeIterationsGo, gt_iff_lt, if_neg hng]
      rw [hstep]
      omega

/-- `escapeIterations` on a never-escaping point returns the full budget. -/
theorem escapeIterations_interior (cRe cIm : ℚ) (maxIterations : ℕ)
    (h : ∀ j < maxIterations, magSq (mandelOrbit cRe cIm j) ≤ 4) :
    escapeIterations cRe cIm maxIterations = maxIterations := by
  have := escapeIterationsGo_interior cRe cIm maxIterations 0 (by simpa using h)
  simpa [escapeIterations, mandelOrbit] using this

/-- `escapeIterations` on a point first escaping at index `k < maxIterations`
returns `k`. -/
theorem escapeIterations_of_escape (cRe cIm : ℚ) (maxIterations k : ℕ)
    (hk : k < maxIterations) (hesc : 4 < magSq (mandelOrbit cRe cIm k))
    (hmin : ∀ j < k, magSq (mandelOrbit cRe cIm j) ≤ 4) :
    escapeIterations cRe cIm maxIterations = k := by
  have := escapeIterationsGo_escape cRe cIm maxIterations 0 k hk (by simpa)
    (by simpa using hmin)
  simpa [escapeIterations, mandelOrbit] using this

/-- If no orbit point tested inside the remaining fuel escapes, the smooth
loop runs the budget out and returns `maxIterations`. -/
theorem smoothEscapeGo_interior (cRe cIm : ℚ) (maxIterations : ℕ) :
    ∀ fuel i : ℕ, (∀ j < fuel, magSq (mandelOrbit cRe cIm (i + j)) ≤ 4) →
      smoothEscapeGo cRe cIm (mandelOrbit cRe cIm i).1 (mandelOrbit cRe cIm i).2
        i maxIterations fuel = maxIterations := by
  intro fuel
  induction fuel with
  | zero => intro i _; simp [smoothEscapeGo]
  | succ f ih =>
    intro i h
    have h0 : magSq (mandelOrbit cRe cIm i) ≤ 4 := by
      simpa using h 0 (Nat.succ_pos f)
    have hng : ¬(4 < (mandelOrbit cRe cIm i).1 * (mandelOrbit cRe cIm i).1 +
        (mandelOrbit cRe cIm i).2 * (mandelOrbit cRe cIm i).2) := by
      simpa [magSq] using not_lt.mpr h0
    have hstep := ih (i + 1) (fun j hj => by
      have := h (j + 1) (Nat.succ_lt_succ hj)
      rwa [show i + (j + 1) = i + 1 + j by omega] at this)
    rw [mandelOrbit_succ] at hstep
    simp only [smoothEscapeGo, gt_iff_lt, if_neg hng]
    exact hstep

/-- If the orbit first escapes at index `i + k` with `k` inside the fuel,
the smooth loop returns the clamped logarithmic refinement computed from
the squared magnitude at the escape index. -/
theorem smoothEscapeGo_escape (cRe cIm : ℚ) (maxIterations : ℕ) :
    ∀ fuel i k : ℕ, k < fuel → 4 < magSq (mandelOrbit cRe cIm (i + k)) →
      (∀ j < k, magSq (mandelOrbit cRe cIm (i + j)) ≤ 4) →
      smoothEscapeGo cRe cIm (mandelOrbit cRe cIm i).1 (mandelOrbit cRe cIm i).2
        i maxIterations fuel =
        min (((i + k : ℕ) : ℝ) + 1 - Real.log 4 /
            Real.log (Real.sqrt ((magSq (mandelOrbit cRe cIm (i + k)) : ℚ) : ℝ)))
          (maxIterations : ℝ) := by
  intro fuel
  induction fuel with
  | zero => omega
  | succ f ih =>
    intro i k hk hesc hmin
    cases k with
    | zero =>
      have hesc' : 4 < (mandelOrbit cRe cIm i).1 * (mandelOrbit cRe cIm i).1 +
          (mandelOrbit cRe cIm i).2 * (mandelOrbit cRe cIm i).2 := by
        simpa [magSq] using hesc
      simp [smoothEscapeGo, hesc', magSq]
    | succ k' =>
      have h0 : magSq (mandelOrbit cRe cIm i) ≤ 4 := by
        simpa using hmin 0 (Nat.succ_pos k')
      have hng : ¬(4 < (mandelOrbit cRe cIm i).1 * (mandelOrbit cRe cIm i).1 +
          (mandelOrbit cRe cIm i).2 * (mandelOrbit cRe cIm i).2) := by
        simpa [magSq] using not_lt.mpr h0
      have hstep := ih (i + 1) k' (by omega)
        (by rwa [show i + 1 + k' = i + (k' + 1) by omega])
        (fun j hj => by
          have := hmin (j + 1) (Nat.succ_lt_succ hj)
          rwa [show i + (j + 1) = i + 1 + j by omega] at this)
      rw [mandelOrbit_succ] at hstep
      simp only [smoothEscapeGo, gt_iff_lt, if_neg hng]
      rw [hstep, show i + 1 + k' = i + (k' + 1) by omega]

/-- `smoothEscape` on a never-escaping point returns the full budget. -/
theorem smoothEscape_interior (cRe cIm : ℚ) (maxIterations : ℕ)
    (h : ∀ j < maxIterations, magSq (mandelOrbit cRe cIm j) ≤ 4) :
    smoothEscape cRe cIm maxIterations = maxIterations := by
  have := smoothEscapeGo_interior cRe cIm maxIterations maxIterations 0
    (by simpa using h)
  simpa [smoothEscape, mandelOrbit] using this

/-- `smoothEscape` on a point first escaping at index `k < maxIterations`
returns `min (k + 1 − log 4 / log √m) maxIterations`, where `m` is the
squared magnitude at the escape index. -/
theorem smoothEscape_of_escape (cRe cIm : ℚ) (maxIterations k : ℕ)
    (hk : k < maxIterations) (hesc : 4 < magSq (mandelOrbit cRe cIm k))
    (hmin : ∀ j < k, magSq (mandelOrbit cRe cIm j) ≤ 4) :
    smoothEscape cRe cIm maxIterations =
      min ((k : ℝ) + 1 - Real.log 4 /
          Real.log (Real.sqrt ((magSq (mandelOrbit cRe cIm k) : ℚ) : ℝ)))
        (maxIterations : ℝ) := by
  have := smoothEscapeGo_escape cRe cIm maxIterations maxIterations 0 k hk
    (by simpa) (by simpa using hmin)
  simpa [smoothEscape, mandelOrbit] using this

/-- Bounds on the clamped smooth refinement: since the escape magnitude
satisfies `m > 4`, the log ratio lies strictly between `0` and `2`, so the
value lies in `(k − 1, k + 1)` (and the clamp at `maxIterations ≥ k + 1`
never bites). -/
theorem smooth_refinement_bounds (k maxIterations : ℕ) (m : ℚ)
    (hk : k < maxIterations) (hm : 4 < m) :
    (k : ℝ) - 1 <
        min ((k : ℝ) + 1 - Real.log 4 / Real.log (Real.sqrt (m : ℝ)))
          (maxIterations : ℝ) ∧
      min ((k : ℝ) + 1 - Real.log 4 / Real.log (Real.sqrt (m : ℝ)))
          (maxIterations : ℝ) < (k : ℝ) + 1 := by
  have hm' : (4 : ℝ) < (m : ℝ) := by exact_mod_cast hm
  have hsqrt : (2 : ℝ) < Real.sqrt (m : ℝ) := by
    have h4 : Real.sqrt 4 < Real.sqrt (m : ℝ) := Real.sqrt_lt_sqrt (by norm_num) hm'
    rwa [show (4 : ℝ) = 2 ^ 2 by norm_num,
      Real.sqrt_sq (by norm_num : (0 : ℝ) ≤ 2)] at h4
  have hL : Real.log 2 < Real.log (Real.sqrt (m : ℝ)) :=
    Real.log_lt_log (by norm_num) hsqrt
  have hLpos : 0 < Real.log (Real.sqrt (m : ℝ)) :=
    lt_trans (Real.log_pos (by norm_num)) hL
  have hlog4 : Real.log 4 = 2 * Real.log 2 := by
    rw [show (4 : ℝ) = 2 ^ 2 by norm_num, Real.log_pow]
    push_cast
    ring
  have hrlt : Real.log 4 / Real.log (Real.sqrt (m : ℝ)) < 2 := by
    rw [div_lt_iff₀ hLpos, hlog4]
    linarith
  have hrpos : 0 < Real.log 4 / Real.log (Real.sqrt (m : ℝ)) :=
    div_pos (Real.log_pos (by norm_num)) hLpos
  have hlt : (k : ℝ) + 1 - Real.log 4 / Real.log (Real.sqrt (m : ℝ)) < (k : ℝ) + 1 := by
    linarith
  have hle : (k : ℝ) + 1 ≤ (maxIterations : ℝ) := by exact_mod_cast hk
  have hminv : min ((k : ℝ) + 1 - Real.log 4 / Real.log (Real.sqrt (m : ℝ)))
      (maxIterations : ℝ) =
      (k : ℝ) + 1 - Real.log 4 / Real.log (Real.sqrt (m : ℝ)) :=
    min_eq_left (by linarith)
  constructor
  · rw [hminv]
    linarith
  · rw [hminv]
    linarith

/-- C9: a point whose orbit never exceeds the bailout within the budget is
treated as interior: `escapeIterations` and `smoothEscape` both return
exactly `maxIterations`; with the degenerate budget `maxIterations = 0` the
hypothesis is vacuous, so both kernels return `0` immediately. -/
theorem C9_interior_agreement (cRe cIm : ℚ) (maxIterations : ℕ)
    (h : ∀ j < maxIterations, magSq (mandelOrbit cRe cIm j) ≤ 4) :
    escapeIterations cRe cIm maxIterations = maxIterations ∧
      smoothEscape cRe cIm maxIterations = maxIterations :=
  ⟨escapeIterations_interior cRe cIm maxIterations h,
    smoothEscape_interior cRe cIm maxIterations h⟩

theorem C9_interior_agreement_witness :
    (∀ j < 0, magSq (mandelOrbit 3 0 j) ≤ 4) ∧
      escapeIterations 3 0 0 = 0 ∧ smoothEscape 3 0 0 = 0 := by
  have h : ∀ j < 0, magSq (mandelOrbit 3 0 j) ≤ 4 := by
    intro j hj
    exact absurd hj (Nat.not_lt_zero j)
  obtain ⟨h1, h2⟩ := C9_interior_agreement 3 0 0 h
  exact ⟨h, h1, by simpa using h2⟩

/-- C2 (amended): on escape at iteration `k` with squared magnitude `m > 4`,
`smoothEscape` returns `min (k + 1 − ln 4 / ln √m) maxIterations` — the
constant inside the logarithm is the squared-radius bailout `4`, i.e.
`ln (bailoutRadius²)`, not `ln bailoutRadius` with `bailoutRadius = 2` —
and the value lies in `(iterationCount − 1, iterationCount + 1)` where
`iterationCount = escapeIterations(re, im, maxIterations) = k`. -/
theorem C2_smooth_formula (cRe cIm : ℚ) (maxIterations k : ℕ)
    (hk : k < maxIterations) (hesc : 4 < magSq (mandelOrbit cRe cIm k))
    (hmin : ∀ j < k, magSq (mandelOrbit cRe cIm j) ≤ 4) :
    escapeIterations cRe cIm maxIterations = k ∧
      smoothEscape cRe cIm maxIterations =
        min ((k : ℝ) + 1 - Real.log 4 /
            Real.log (Real.sqrt ((magSq (mandelOrbit cRe cIm k) : ℚ) : ℝ)))
          (maxIterations : ℝ) ∧
      (k : ℝ) - 1 < smoothEscape cRe cIm maxIterations ∧
      smoothEscape cRe cIm maxIterations < (k : ℝ) + 1 := by
  have h1 := escapeIterations_of_escape cRe cIm maxIterations k hk hesc hmin
  have h2 := smoothEscape_of_escape cRe cIm maxIterations k hk hesc hmin
  have h3 := smooth_refinement_bounds k maxIterations (magSq (mandelOrbit cRe cIm k))
    hk hesc
  exact ⟨h1, h2, by rw [h2]; exact h3.1, by rw [h2]; exact h3.2⟩

/-- The orbit of `c = (3, 0)` after one step. -/
theorem mandelOrbit_three_one : mandelOrbit 3 0 1 = (3, 0) := by
  rw [show (1 : ℕ) = 0 + 1 from rfl, mandelOrbit_succ]
  norm_num [mandelOrbit]

/-- At `c = (3, 0)` the orbit escapes at index `1` with squared magnitude 9,
having stayed inside the bailout before. -/
theorem escape_at_three :
    (4 : ℚ) < magSq (mandelOrbit 3 0 1) ∧ magSq (mandelOrbit 3 0 1) = 9 ∧
      ∀ j < 1, magSq (mandelOrbit 3 0 j) ≤ 4 := by
  refine ⟨?_, ?_, ?_⟩
  · rw [mandelOrbit_three_one]
    norm_num [magSq]
  · rw [mandelOrbit_three_one]
    norm_num [magSq]
  · intro j hj
    interval_cases j
    norm_num [mandelOrbit, magSq]

theorem C2_smooth_formula_witness :
    (1 < 10 ∧ (4 : ℚ) < magSq (mandelOrbit 3 0 1)) ∧
      escapeIterations 3 0 10 = 1 ∧
      (0 : ℝ) < smoothEscape 3 0 10 ∧ smoothEscape 3 0 10 < 2 := by
  have h := C2_smooth_formula 3 0 10 1 (by norm_num) escape_at_three.1
    escape_at_three.2.2
  refine ⟨⟨by norm_num, escape_at_three.1⟩, h.1, ?_, ?_⟩
  · have := h.2.2.1
    push_cast at this
    linarith
  · have := h.2.2.2
    push_cast at this
    linarith

/-- C2 counterexample: at `c = (3, 0)` with budget `10` the orbit escapes at
iteration `1` (so the claim requires a smooth value in `[1, 2)` equal to
`1 + 1 − ln 2 / ln 3 ≈ 1.37`), but `smoothEscape` returns
`2 − ln 4 / ln 3 ≈ 0.74 < 1`: the value undershoots `iterationCount`. -/
theorem C2_counterexample :
    escapeIterations 3 0 10 = 1 ∧ smoothEscape 3 0 10 < 1 := by
  refine ⟨escapeIterations_of_escape 3 0 10 1 (by norm_num) escape_at_three.1
    escape_at_three.2.2, ?_⟩
  have h2 := smoothEscape_of_escape 3 0 10 1 (by norm_num) escape_at_three.1
    escape_at_three.2.2
  rw [escape_at_three.2.1] at h2
  have hsqrt9 : Real.sqrt ((9 : ℚ) : ℝ) = 3 := by
    rw [show ((9 : ℚ) : ℝ) = 3 ^ 2 by norm_num,
      Real.sqrt_sq (by norm_num : (0 : ℝ) ≤ 3)]
  rw [hsqrt9] at h2
  have hlog3pos : 0 < Real.log 3 := Real.log_pos (by norm_num)
  have hratio : 1 < Real.log 4 / Real.log 3 :=
    (one_lt_div hlog3pos).mpr (Real.log_lt_log (by norm_num) (by norm_num))
  have hv : ((1 : ℕ) : ℝ) + 1 - Real.log 4 / Real.log 3 < 1 := by
    push_cast
    linarith
  rw [h2]
  exact lt_of_le_of_lt (min_le_left _ _) hv

/-! ## CoordinateMapper and ZoomPlanner claims -/

/-- C3: for positive viewport spans and canvas dimensions, composing
`pixelToComplex` and `complexToPixel` in either order is the identity —
exactly, in the rational-arithmetic model, hence in particular within
floating-point tolerance — for every pixel coordinate, including
coordinates outside the canvas. -/
theorem C3_roundtrip (v : Viewport) (px py re im w h : ℚ)
    (hvw : 0 < v.width) (hvh : 0 < v.height) (hw : 0 < w) (hh : 0 < h) :
    complexToPixel v (pixelToComplex v px py w h).re (pixelToComplex v px py w h).im
        w h = ⟨px, py⟩ ∧
      pixelToComplex v (complexToPixel v re im w h).x (complexToPixel v re im w h).y
        w h = ⟨re, im⟩ := by
  have hvw' := hvw.ne'
  have hvh' := hvh.ne'
  have hw' := hw.ne'
  have hh' := hh.ne'
  constructor
  · simp only [pixelToComplex, complexToPixel, PixelPoint.mk.injEq]
    constructor
    · field_simp
      ring
    · field_simp
      ring
  · simp only [pixelToComplex, complexToPixel, ComplexPoint.mk.injEq]
    constructor
    · field_simp
      ring
    · field_simp
      ring

theorem C3_roundtrip_witness :
    complexToPixel ⟨-1/2, 0, 28/5, 63/20⟩
        (pixelToComplex ⟨-1/2, 0, 28/5, 63/20⟩ 900 (-37) 800 450).re
        (pixelToComplex ⟨-1/2, 0, 28/5, 63/20⟩ 900 (-37) 800 450).im 800 450 =
      ⟨900, -37⟩ ∧
    pixelToComplex ⟨-1/2, 0, 28/5, 63/20⟩
        (complexToPixel ⟨-1/2, 0, 28/5, 63/20⟩ 0 1 800 450).x
        (complexToPixel ⟨-1/2, 0, 28/5, 63/20⟩ 0 1 800 450).y 800 450 = ⟨0, 1⟩ :=
  C3_roundtrip ⟨-1/2, 0, 28/5, 63/20⟩ 900 (-37) 0 1 800 450
    (by norm_num) (by norm_num) (by norm_num) (by norm_num)

/-- C4 counterexample: a zero-by-zero selection on a 100×100 canvas yields a
viewport with zero width and zero height — a non-positive span, not the
smallest representable positive span.  (In JavaScript the branch test
`0/0 > 1` is `NaN > 1 = false` and the height branch computes
`(0/100)·3.15 = 0`, exactly as the rational model does here.) -/
theorem C4_counterexample :
    (zoomToRect ⟨-1/2, 0, 28/5, 63/20⟩ ⟨10, 20, 0, 0⟩ ⟨100, 100⟩).width = 0 ∧
      (zoomToRect ⟨-1/2, 0, 28/5, 63/20⟩ ⟨10, 20, 0, 0⟩ ⟨100, 100⟩).height = 0 := by
  norm_num [zoomToRect, createViewport]

/-- C4 (amended): `zoomToRect` has no degenerate-input guard: a selection
rectangle with zero width and zero height on a canvas with positive
dimensions produces a viewport whose width and height are both zero, so
callers must pre-filter zero-sized selections themselves. -/
theorem C4_no_degenerate_guard (v : Viewport) (x y cw ch : ℚ)
    (hcw : 0 < cw) (hch : 0 < ch) :
    (zoomToRect v ⟨x, y, 0, 0⟩ ⟨cw, ch⟩).width = 0 ∧
      (zoomToRect v ⟨x, y, 0, 0⟩ ⟨cw, ch⟩).height = 0 := by
  have haspect : (0 : ℚ) ≤ cw / ch := le_of_lt (div_pos hcw hch)
  have hcond : ¬((0 : ℚ) / 0 > cw / ch) := by
    rw [zero_div]
    exact not_lt.mpr haspect
  simp [zoomToRect, createViewport, hcond]

theorem C4_no_degenerate_guard_witness :
    (zoomToRect ⟨0, 0, 3, 3⟩ ⟨1, 2, 0, 0⟩ ⟨100, 50⟩).width = 0 ∧
      (zoomToRect ⟨0, 0, 3, 3⟩ ⟨1, 2, 0, 0⟩ ⟨100, 50⟩).height = 0 :=
  C4_no_degenerate_guard ⟨0, 0, 3, 3⟩ 1 2 100 50 (by norm_num) (by norm_num)

/-- C5: for every positive aspect ratio `a`, the home viewport has
`width / height = a` (exactly, in the rational model) and its bounds
contain the canonical box: `left ≤ −2`, `right ≥ 1`, `top ≥ 1.5`,
`bottom ≤ −1.5`. -/
theorem C5_resetViewport_home (a : ℚ) (ha : 0 < a) :
    (resetViewport a).width / (resetViewport a).height = a ∧
      (getViewportBounds (resetViewport a)).left ≤ -2 ∧
      1 ≤ (getViewportBounds (resetViewport a)).right ∧
      3/2 ≤ (getViewportBounds (resetViewport a)).top ∧
      (getViewportBounds (resetViewport a)).bottom ≤ -(3/2) := by
  have ha' := ha.ne'
  have hwge : (63 : ℚ)/20 ≤ max 3 (3 * a) * (21/20) := by
    have h3 : (3 : ℚ) ≤ max 3 (3 * a) := le_max_left _ _
    nlinarith
  have hwpos : (0 : ℚ) < max 3 (3 * a) * (21/20) := by linarith
  have hwne := hwpos.ne'
  have hhval : max 3 (3 * a) * (21/20) / a > 0 := div_pos hwpos ha
  have hhge : (3 : ℚ) ≤ max 3 (3 * a) * (21/20) / a := by
    rcases max_cases (3 : ℚ) (3 * a) with ⟨hm, hba⟩ | ⟨hm, hba⟩
    · have ha1 : a ≤ 1 := by linarith
      rw [hm, le_div_iff₀ ha]
      nlinarith
    · have ha1 : 1 < a := by linarith
      rw [hm]
      rw [le_div_iff₀ ha]
      nlinarith
  refine ⟨?_, ?_, ?_, ?_, ?_⟩
  · show max 3 (3 * a) * (21/20) / (max 3 (3 * a) * (21/20) / a) = a
    rw [div_div_eq_mul_div, mul_comm, mul_div_assoc, div_self hwne, mul_one]
  · show (-1/2 : ℚ) - max 3 (3 * a) * (21/20) / 2 ≤ -2
    linarith
  · show (1 : ℚ) ≤ -1/2 + max 3 (3 * a) * (21/20) / 2
    linarith
  · show (3/2 : ℚ) ≤ 0 + max 3 (3 * a) * (21/20) / a / 2
    linarith
  · show (0 : ℚ) - max 3 (3 * a) * (21/20) / a / 2 ≤ -(3/2)
    linarith

theorem C5_resetViewport_home_witness :
    (resetViewport (16/9)).width / (resetViewport (16/9)).height = 16/9 ∧
      (getViewportBounds (resetViewport (16/9))).left ≤ -2 ∧
      1 ≤ (getViewportBounds (resetViewport (16/9))).right ∧
      3/2 ≤ (getViewportBounds (resetViewport (16/9))).top ∧
      (getViewportBounds (resetViewport (16/9))).bottom ≤ -(3/2) :=
  C5_resetViewport_home (16/9) (by norm_num)

/-- C7: for positive viewport spans, selection dimensions and canvas
dimensions, `zoomToRect` always yields `width / height` equal to the canvas
aspect ratio, and the sizing axis follows the tie-break rule: width drives
the sizing when the selection's pixel aspect ratio exceeds the canvas
aspect ratio, otherwise height drives it. -/
theorem C7_zoomToRect_aspect_lock (v : Viewport) (r : Rect) (c : CanvasSize)
    (hvw : 0 < v.width) (hvh : 0 < v.height) (hrw : 0 < r.width) (hrh : 0 < r.height)
    (hcw : 0 < c.width) (hch : 0 < c.height) :
    (zoomToRect v r c).width / (zoomToRect v r c).height = c.width / c.height ∧
      (r.width / r.height > c.width / c.height →
        (zoomToRect v r c).width = r.width / c.width * v.width) ∧
      (¬(r.width / r.height > c.width / c.height) →
        (zoomToRect v r c).height = r.height / c.height * v.height) := by
  have haspect : (0 : ℚ) < c.width / c.height := div_pos hcw hch
  by_cases hcond : r.width / r.height > c.width / c.height
  · have hnW : (0 : ℚ) < r.width / c.width * v.width := by positivity
    simp only [zoomToRect, createViewport, if_pos hcond]
    refine ⟨?_, fun _ => trivial, fun hc => absurd hcond hc⟩
    rw [div_div_eq_mul_div, mul_comm (r.width / c.width * v.width) (c.width / c.height),
      mul_div_assoc, div_self hnW.ne', mul_one]
  · have hnH : (0 : ℚ) < r.height / c.height * v.height := by positivity
    simp only [zoomToRect, createViewport, if_neg hcond]
    refine ⟨?_, fun hc => absurd hc hcond, fun _ => trivial⟩
    rw [mul_comm (r.height / c.height * v.height) (c.width / c.height),
      mul_div_assoc, div_self hnH.ne', mul_one]

theorem C7_zoomToRect_aspect_lock_witness :
    (zoomToRect ⟨-1/2, 0, 28/5, 63/20⟩ ⟨100, 100, 600, 250⟩ ⟨800, 450⟩).width /
        (zoomToRect ⟨-1/2, 0, 28/5, 63/20⟩ ⟨100, 100, 600, 250⟩ ⟨800, 450⟩).height =
      800/450 ∧
    ((600 : ℚ)/250 > 800/450 →
      (zoomToRect ⟨-1/2, 0, 28/5, 63/20⟩ ⟨100, 100, 600, 250⟩ ⟨800, 450⟩).width =
        600/800 * (28/5)) := by
  have h := C7_zoomToRect_aspect_lock ⟨-1/2, 0, 28/5, 63/20⟩ ⟨100, 100, 600, 250⟩
    ⟨800, 450⟩ (by norm_num) (by norm_num) (by norm_num) (by norm_num)
    (by norm_num) (by norm_num)
  exact ⟨h.1, fun hc => h.2.1 hc⟩

/-- `resetViewport (16/9)` computed in closed form. -/
theorem resetViewport_sixteen_ninths :
    resetViewport (16/9) = ⟨-1/2, 0, 28/5, 63/20⟩ := by
  simp only [resetViewport, createViewport]
  rw [max_eq_right (by norm_num : (3 : ℚ) ≤ 3 * (16/9))]
  norm_num [Viewport.mk.injEq]

/-- C8 counterexample: the home view for aspect ratio `16/9` has width
exactly `5.6` and height exactly `3.15`; in particular the width is not
within `0.1` of the claimed `5.89` (the claimed numbers apply the 5%
padding twice). -/
theorem C8_counterexample :
    (resetViewport (16/9)).width = 28/5 ∧ (resetViewport (16/9)).height = 63/20 ∧
      ¬(|(resetViewport (16/9)).width - 589/100| ≤ 1/10) := by
  rw [resetViewport_sixteen_ninths]
  refine ⟨rfl, rfl, ?_⟩
  rw [show (⟨-1/2, 0, 28/5, 63/20⟩ : Viewport).width - 589/100 = -(29/100) by norm_num,
    abs_neg, abs_of_pos (by norm_num : (0 : ℚ) < 29/100)]
  norm_num

/-- C8 (amended): `resetViewport (16/9)` has width exactly `5.6` (= `28/5`,
i.e. `3 · (16/9) · 1.05`) and height exactly `3.15` (= `63/20`, the width
divided by `16/9`). -/
theorem C8_home_sixteen_ninths :
    (resetViewport (16/9)).width = 28/5 ∧
      (resetViewport (16/9)).height = 63/20 ∧
      (resetViewport (16/9)).width = 3 * (16/9) * (21/20) ∧
      (resetViewport (16/9)).height = (resetViewport (16/9)).width / (16/9) := by
  rw [resetViewport_sixteen_ninths]
  refine ⟨rfl, rfl, by norm_num, by norm_num⟩

/-! ## RenderController claims -/

open RenderController

/-- A later `stopHoldZoom` on a state with no stored hold viewport only
clears the hold frame handle and emits nothing. -/
theorem stopHoldZoom_noop (st : RenderSettings) (cb : Bool) (s : State)
    (h : s.holdLastViewport = none) :
    stopHoldZoom st cb s = ({ s with holdZoomFrameId := none }, []) := by
  simp [stopHoldZoom, h]

/-- Firing a hold-zoom frame is a no-op when no hold-zoom frame is armed. -/
theorem fireHold_noop (expF : ℚ → ℚ) (now : ℚ) (s : State)
    (h : s.holdZoomFrameId = none) :
    applyAct expF (Act.fireHold now) s = (s, []) := by
  simp [applyAct, fireHold, h]

/-- Every action except `startHoldZoom` preserves `holdInactive`. -/
theorem holdInactive_preserved (expF : ℚ → ℚ) (a : Act) (ha : a.isStartHold = false)
    (s : State) (h : holdInactive s) : holdInactive (applyAct expF a s).1 := by
  obtain ⟨h1, h2⟩ := h
  cases a with
  | animateZoom vp st tRe tIm asp cb now =>
    simp [applyAct, animateZoom, cancel, holdInactive]
  | startHoldZoom vp st tRe tIm asp now => simp [Act.isStartHold] at ha
  | stopHoldZoom st cb => simp [applyAct, stopHoldZoom, h2, holdInactive]
  | startInteraction => simpa [applyAct, startInteraction, holdInactive] using ⟨h1, h2⟩
  | endInteraction => simpa [applyAct, endInteraction, holdInactive] using ⟨h1, h2⟩
  | render vp st debounce =>
    cases debounce <;>
      simpa [applyAct, RenderController.render, holdInactive] using ⟨h1, h2⟩
  | cancel => simp [applyAct, cancel, holdInactive]
  | fireDebounce =>
    by_cases hd : s.debounceTimeoutId <;>
      simpa [applyAct, fireDebounce, hd, holdInactive] using ⟨h1, h2⟩
  | fireRenderFrame =>
    by_cases hd : s.renderRequestId <;>
      simpa [applyAct, fireRenderFrame, hd, holdInactive] using ⟨h1, h2⟩
  | fireAnim now =>
    rcases hanim : s.animationFrameId with _ | d
    · simpa [applyAct, fireAnim, hanim, holdInactive] using ⟨h1, h2⟩
    · by_cases ht : min 1 ((now - d.startTime) / 450) < 1 <;>
        simpa [applyAct, fireAnim, hanim, ht, holdInactive] using ⟨h1, h2⟩
  | fireHold now => simpa [fireHold_noop expF now s h1] using ⟨h1, h2⟩

/-- `holdInactive` is preserved along any action sequence that contains no
`startHoldZoom`. -/
theorem holdInactive_trace (expF : ℚ → ℚ) (acts : List Act)
    (ha : ∀ a ∈ acts, a.isStartHold = false) :
    ∀ (s : State) (evs : List Event), holdInactive s →
      holdInactive (runActs expF acts (s, evs)).1 := by
  induction acts with
  | nil => intro s evs h; exact h
  | cons a rest ih =>
    intro s evs h
    have h' := holdInactive_preserved expF a (ha a (List.mem_cons_self a rest)) s h
    simpa [runActs] using
      ih (fun b hb => ha b (List.mem_cons_of_mem a hb)) (applyAct expF a s).1
        (evs ++ (applyAct expF a s).2) h'

/-- C6: starting `animateZoom` while a hold-zoom loop is active cancels the
hold-zoom outright: the hold frame handle and the stored hold viewport are
cleared and the animation loop is armed; along any subsequent action
sequence with no new `startHoldZoom`, the hold-zoom stays cancelled, a
hold-zoom frame firing is a no-op (no further hold-zoom frame ever runs),
and a subsequent `stopHoldZoom` emits no render and no completion callback
and leaves the stored last-render viewport/settings unchanged. -/
theorem C6_animateZoom_cancels_holdZoom (expF : ℚ → ℚ) (s : State) (vp : Viewport)
    (st : RenderSettings) (tRe tIm asp : ℚ) (cb : Bool) (now : ℚ)
    (hactive : s.holdZoomFrameId.isSome = true) :
    (animateZoom vp st tRe tIm asp cb now s).1.holdZoomFrameId = none ∧
      (animateZoom vp st tRe tIm asp cb now s).1.holdLastViewport = none ∧
      (animateZoom vp st tRe tIm asp cb now s).1.animationFrameId.isSome = true ∧
      ∀ acts : List Act, (∀ a ∈ acts, a.isStartHold = false) →
        ∀ s2 : State,
          s2 = (runActs expF acts ((animateZoom vp st tRe tIm asp cb now s).1, [])).1 →
          s2.holdZoomFrameId = none ∧ s2.holdLastViewport = none ∧
            (∀ (st2 : RenderSettings) (cb2 : Bool),
              (stopHoldZoom st2 cb2 s2).2 = [] ∧
                (stopHoldZoom st2 cb2 s2).1.lastViewport = s2.lastViewport ∧
                (stopHoldZoom st2 cb2 s2).1.lastSettings = s2.lastSettings) ∧
            ∀ now2 : ℚ, applyAct expF (Act.fireHold now2) s2 = (s2, []) := by
  have h0 : holdInactive (animateZoom vp st tRe tIm asp cb now s).1 := by
    simp [animateZoom, cancel, holdInactive]
  refine ⟨h0.1, h0.2, ?_, ?_⟩
  · simp [animateZoom, cancel]
  · intro acts hacts s2 hs2
    have htr : holdInactive s2 := by
      rw [hs2]
      exact holdInactive_trace expF acts hacts _ [] h0
    refine ⟨htr.1, htr.2, fun st2 cb2 => ?_, fun now2 => fireHold_noop expF now2 s2 htr.1⟩
    rw [stopHoldZoom_noop st2 cb2 s2 htr.2]
    exact ⟨rfl, rfl, rfl⟩

theorem C6_animateZoom_cancels_holdZoom_witness :
    ((startHoldZoom sampleViewport sampleSettings 0 0 (16/9) 0 State.initial).1.holdZoomFrameId.isSome
        = true) ∧
      (animateZoom sampleViewport sampleSettings 0 0 (16/9) true 5
          (startHoldZoom sampleViewport sampleSettings 0 0 (16/9) 0 State.initial).1).1.holdZoomFrameId
        = none ∧
      (stopHoldZoom sampleSettings true
          (animateZoom sampleViewport sampleSettings 0 0 (16/9) true 5
            (startHoldZoom sampleViewport sampleSettings 0 0 (16/9) 0 State.initial).1).1).2
        = [] := by
  have hactive : (startHoldZoom sampleViewport sampleSettings 0 0 (16/9) 0
      State.initial).1.holdZoomFrameId.isSome = true := rfl
  have h := C6_animateZoom_cancels_holdZoom (fun _ => 1)
    (startHoldZoom sampleViewport sampleSettings 0 0 (16/9) 0 State.initial).1
    sampleViewport sampleSettings 0 0 (16/9) true 5 hactive
  have h4 := h.2.2.2 [] (fun a ha => absurd ha (List.not_mem_nil a)) _ rfl
  exact ⟨hactive, h.1, (h4.2.2.1 sampleSettings true).1⟩

/-- C10: `stopHoldZoom` called when no hold-zoom frame has stored a
viewport (e.g. called twice in a row, called before the first hold-zoom
frame fires, or called after `cancel`) issues no render, invokes no
completion callback, leaves the stored last-render viewport and settings
unchanged, and only clears the hold frame handle. -/
theorem C10_stopHoldZoom_no_stored_viewport (st : RenderSettings) (cb : Bool)
    (s : State) (h : s.holdLastViewport = none) :
    (stopHoldZoom st cb s).2 = [] ∧
      (stopHoldZoom st cb s).1.lastViewport = s.lastViewport ∧
      (stopHoldZoom st cb s).1.lastSettings = s.lastSettings ∧
      (stopHoldZoom st cb s).1 = { s with holdZoomFrameId := none } := by
  rw [stopHoldZoom_noop st cb s h]
  exact ⟨rfl, rfl, rfl, rfl⟩

theorem C10_stopHoldZoom_no_stored_viewport_witness :
    State.initial.holdLastViewport = none ∧
      (stopHoldZoom sampleSettings true State.initial).2 = [] ∧
      (stopHoldZoom sampleSettings true State.initial).1.lastViewport = none ∧
      (stopHoldZoom sampleSettings true State.initial).1 = State.initial := by
  have h := C10_stopHoldZoom_no_stored_viewport sampleSettings true State.initial rfl
  exact ⟨rfl, h.1, h.2.1, h.2.2.2⟩

/-- C1 counterexample: from the initial state, a debounced `render` followed
by an immediate `render` is a reachable two-step run after which both the
debounce timer and a scheduled render frame are armed — two timing sources
are active at once, and the second `render` did not cancel the armed
debounce timer before arming its frame. -/
theorem C1_counterexample :
    activeSources
        (runActs (fun _ => 1)
          [Act.render sampleViewport sampleSettings true,
            Act.render sampleViewport sampleSettings false]
          (State.initial, [])).1 = 2 ∧
      (runActs (fun _ => 1)
          [Act.render sampleViewport sampleSettings true,
            Act.render sampleViewport sampleSettings false]
          (State.initial, [])).1.debounceTimeoutId = true ∧
      (runActs (fun _ => 1)
          [Act.render sampleViewport sampleSettings true,
            Act.render sampleViewport sampleSettings false]
          (State.initial, [])).1.renderRequestId = true :=
  ⟨rfl, rfl, rfl⟩

/-- C1 (amended): `animateZoom` and `startHoldZoom` first cancel every
timing source and leave exactly one active (their own loop); but `render`
and `endInteraction` cancel only the same-kind timing source before arming
a new one — a debounced `render` replaces only the debounce timer, an
immediate `render` and `endInteraction` replace only the scheduled render
frame — leaving any other armed source in place, so two timing sources can
be active simultaneously at a reachable state. -/
theorem C1_cancellation_discipline :
    (∀ (s : State) (vp : Viewport) (st : RenderSettings) (tRe tIm asp : ℚ)
        (cb : Bool) (now : ℚ),
        activeSources (animateZoom vp st tRe tIm asp cb now s).1 = 1) ∧
      (∀ (s : State) (vp : Viewport) (st : RenderSettings) (tRe tIm asp now : ℚ),
        activeSources (startHoldZoom vp st tRe tIm asp now s).1 = 1) ∧
      (∀ (s : State) (vp : Viewport) (st : RenderSettings),
        (RenderController.render vp st true s).1.debounceTimeoutId = true ∧
          (RenderController.render vp st true s).1.renderRequestId = s.renderRequestId ∧
          (RenderController.render vp st true s).1.animationFrameId = s.animationFrameId ∧
          (RenderController.render vp st true s).1.holdZoomFrameId = s.holdZoomFrameId) ∧
      (∀ (s : State) (vp : Viewport) (st : RenderSettings),
        (RenderController.render vp st false s).1.renderRequestId = true ∧
          (RenderController.render vp st false s).1.debounceTimeoutId = s.debounceTimeoutId ∧
          (RenderController.render vp st false s).1.animationFrameId = s.animationFrameId ∧
          (RenderController.render vp st false s).1.holdZoomFrameId = s.holdZoomFrameId) ∧
      ∀ s : State,
        (endInteraction s).1.renderRequestId = true ∧
          (endInteraction s).1.debounceTimeoutId = s.debounceTimeoutId ∧
          (endInteraction s).1.animationFrameId = s.animationFrameId ∧
          (endInteraction s).1.holdZoomFrameId = s.holdZoomFrameId := by
  refine ⟨?_, ?_, ?_, ?_, ?_⟩
  · intro s vp st tRe tIm asp cb now
    simp [animateZoom, cancel, activeSources]
  · intro s vp st tRe tIm asp now
    simp [startHoldZoom, cancel, activeSources]
  · intro s vp st
    exact ⟨rfl, rfl, rfl, rfl⟩
  · intro s vp st
    exact ⟨rfl, rfl, rfl, rfl⟩
  · intro s
    exact ⟨rfl, rfl, rfl, rfl⟩
